import Mathlib

/-!
Verification of the resilient data-acquisition pipeline of the
vitivinicultura statistics API (scraper + cache + fallback loader +
subcategory classifier), shallowly embedded from the Python sources
`app/services/cache_service.py`, `app/services/scraper/adaptive_scraper.py`
and `app/services/data_service.py`.

Machine integers are modelled as `Nat`/`Int` (no overflow is relevant),
time as an explicit `Nat` parameter threaded through the cache operations,
and exceptions as `Option`/sum types.  The cachetools `TTLCache` and
`LRUCache` stores are modelled with explicit association lists kept in
recency order (head = most recently inserted), with eviction by `take`.
-/

/-! ## Resilient cache (`app/services/cache_service.py`) -/

/-- State of a `ResilientCache` instance: a TTL-plus-LRU-bounded fresh store
(entries `(key, value, expiryTime)`) and an LRU-bounded historical store,
both kept with the most recently inserted entry at the head. -/
structure ResilientCache (V : Type) where
  maxSize : Nat
  ttl : Nat
  fresh : List (String × V × Nat)
  hist : List (String × V)
deriving Repr

/-- `ResilientCache.__init__`: `max_size or settings.CACHE_MAX_SIZE` and
`ttl or settings.CACHE_TTL` (Python `or`, so `None` and `0` both fall back
to the configured defaults 100 and 86400), empty stores; the historical
store capacity is `2 * maxSize` (enforced in `cacheSet`). -/
def mkResilientCache (V : Type) (maxSize ttl : Option Nat) : ResilientCache V :=
  { maxSize := match maxSize with
      | some n => if n = 0 then 100 else n
      | none => 100
    ttl := match ttl with
      | some n => if n = 0 then 86400 else n
      | none => 86400
    fresh := []
    hist := [] }

/-- Lookup in the fresh (TTL) store: an entry is visible only while
`now < expiry`, mirroring `key in self.cache` / `self.cache[key]` on the
`TTLCache`. -/
def freshLookup {V : Type} (st : ResilientCache V) (now : Nat) (key : String) : Option V :=
  match st.fresh.find? (fun e => e.1 == key) with
  | some e => if now < e.2.2 then some e.2.1 else none
  | none => none

/-- Lookup in the historical (LRU) store; no time parameter, historical
entries never expire by time. -/
def histLookup {V : Type} (st : ResilientCache V) (key : String) : Option V :=
  (st.hist.find? (fun e => e.1 == key)).map (fun e => e.2)

/-- LRU touch performed by `self.historical_cache[key]` on a hit: the entry
moves to the most-recently-used position. -/
def touchHist {V : Type} (st : ResilientCache V) (key : String) : ResilientCache V :=
  match st.hist.find? (fun e => e.1 == key) with
  | some e => { st with hist := e :: st.hist.filter (fun x => !(x.1 == key)) }
  | none => st

/-- `ResilientCache.set`: store the value in the fresh store (expiring old
entries, replacing the key, evicting down to `maxSize`) and in the
historical store (replacing the key, evicting down to `2 * maxSize`). -/
def cacheSet {V : Type} (st : ResilientCache V) (now : Nat) (key : String) (v : V) :
    ResilientCache V :=
  { st with
    fresh := ((key, v, now + st.ttl) ::
        st.fresh.filter (fun e => !(e.1 == key) && decide (now < e.2.2))).take st.maxSize
    hist := ((key, v) :: st.hist.filter (fun e => !(e.1 == key))).take (2 * st.maxSize) }

/-- Historical-fallback tail of `ResilientCache.get`: serve the key from the
historical store if present, else `None`. -/
def histReturn {V : Type} (st : ResilientCache V) (key : String) :
    Option V × ResilientCache V :=
  match histLookup st key with
  | some v => (some v, touchHist st key)
  | none => (none, st)

/-- `ResilientCache.get`: try the fresh store; on a miss, if a fetch
function is supplied run it (`some (some v)` = returns `v`,
`some none` = raises, `none` = no function given); a successful fetch is
stored via `cacheSet`; a raising fetch (or no fetch) falls back to the
historical store before returning `None`. -/
def cacheGet {V : Type} (st : ResilientCache V) (now : Nat) (key : String)
    (fetch : Option (Option V)) : Option V × ResilientCache V :=
  match freshLookup st now key with
  | some v => (some v, st)
  | none =>
    match fetch with
    | some (some v) => (some v, cacheSet st now key v)
    | some none => histReturn st key
    | none => histReturn st key

/-- `ResilientCache.invalidate`: `if key in self.cache: del self.cache[key]`
— the deletion touches only the fresh store, and only when the key is
currently visible there (not expired). -/
def cacheInvalidate {V : Type} (st : ResilientCache V) (now : Nat) (key : String) :
    ResilientCache V :=
  if (freshLookup st now key).isSome then
    { st with fresh := st.fresh.filter (fun e => !(e.1 == key)) }
  else st

/-- `ResilientCache.clear`: `self.cache.clear()` — clears the fresh store
only. -/
def cacheClear {V : Type} (st : ResilientCache V) : ResilientCache V :=
  { st with fresh := [] }

/-- One cache operation, for stating invariants over arbitrary operation
sequences. -/
inductive CacheOp (V : Type) where
  | get (now : Nat) (key : String) (fetch : Option (Option V))
  | set (now : Nat) (key : String) (v : V)
  | invalidate (now : Nat) (key : String)
  | clear

/-- Apply a cache operation to the state (the result value of `get` is
discarded; its state effect is kept). -/
def applyOp {V : Type} (st : ResilientCache V) : CacheOp V → ResilientCache V
  | .get now key fetch => (cacheGet st now key fetch).2
  | .set now key v => cacheSet st now key v
  | .invalidate now key => cacheInvalidate st now key
  | .clear => cacheClear st

/-- Size bound on the historical store: at most twice the fresh store's
capacity. -/
def histBound {V : Type} (st : ResilientCache V) : Prop :=
  st.hist.length ≤ 2 * st.maxSize

/-! ## Values and records

Python scalar values occurring in scraped records are modelled by
`PyValue` (floats are modelled exactly as rationals); a Python `dict`
record is an association list with unique keys kept in insertion order. -/

/-- A Python scalar value: string, int, float (modelled exactly over `ℚ`),
or `None`. -/
inductive PyValue where
  | str (s : String)
  | int (n : Int)
  | num (q : ℚ)
  | null
deriving DecidableEq, Repr

/-- Python truthiness of a scalar value. -/
def PyValue.truthy : PyValue → Bool
  | .str s => !(s == "")
  | .int n => !(n == 0)
  | .num q => !(q == 0)
  | .null => false

/-- A scraped record: a Python `dict` from column label to scalar value. -/
abbrev PyRecord := List (String × PyValue)

/-- Python `dict` assignment `d[k] = v`: replace the value in place if the
key exists (keeping its position), else append the new pair. -/
def dictSet {α : Type} : List (String × α) → String → α → List (String × α)
  | [], k, v => [(k, v)]
  | (k1, v1) :: rest, k, v =>
    if k1 = k then (k, v) :: rest else (k1, v1) :: dictSet rest k v

/-! ## Whitespace normalisation (`' '.join(text.split())`) -/

/-- Python `str.split()` with no argument, over characters: split on runs
of whitespace, dropping empty pieces; `acc` holds the (reversed) current
word. -/
def splitWords : List Char → List Char → List (List Char)
  | [], acc => if acc.isEmpty then [] else [acc.reverse]
  | c :: cs, acc =>
    if c.isWhitespace then
      if acc.isEmpty then splitWords cs [] else acc.reverse :: splitWords cs []
    else splitWords cs (c :: acc)

/-- `' '.join(words)` over characters. -/
def joinWords : List (List Char) → List Char
  | [] => []
  | [w] => w
  | w :: w2 :: ws => w ++ ' ' :: joinWords (w2 :: ws)

/-- `' '.join(s.split())`: collapse line breaks and repeated whitespace to
single spaces (used for both header and cell text in the extractor). -/
def normWs (s : String) : String := ⟨joinWords (splitWords s.data [])⟩

/-- Python `str.strip()` over characters. -/
def pyStripChars (cs : List Char) : List Char :=
  ((cs.dropWhile Char.isWhitespace).reverse.dropWhile Char.isWhitespace).reverse

/-- Python `str.strip()`. -/
def pyStrip (s : String) : String := ⟨pyStripChars s.data⟩

/-- Single-pass check that a character list has no leading or trailing
space, no two adjacent spaces, and no whitespace other than `' '`;
`prevSpace` records whether the previous character (or the string start)
forbids a space here. -/
def normFrom : Bool → List Char → Bool
  | prevSpace, [] => !prevSpace
  | prevSpace, c :: cs =>
    if c = ' ' then !prevSpace && normFrom true cs
    else !c.isWhitespace && normFrom false cs

/-- A string is whitespace-normalized: empty, or it starts and ends with a
non-space, uses only `' '` as whitespace, and never has two adjacent
spaces. -/
def isNormalizedStr (s : String) : Bool :=
  s.data.isEmpty || normFrom true s.data

/-! ## Table extraction (`AdaptiveScraper.extract_table_data`)

The BeautifulSoup DOM traversal is modelled at the table level: each table
is the list of its `tr` rows, each row the list of its cells' raw texts.
The modelled fragment covers tables whose discovered header row is the
first row (the source's final header candidate; `thead` / class-marked
header rows are alternate discovery paths feeding the same data-row
loop). -/

/-- Header construction from the header row's cells: stripped nonempty
text is whitespace-normalized, empty cells become `column_i`. -/
def mkHeaders (cells : List String) : List String :=
  cells.enum.map (fun p =>
    let t := pyStrip p.2
    if t = "" then "column_" ++ toString p.1 else normWs t)

/-- Body of the cell loop of one data row: for a cell with an in-range
index, bind the header at that index to the stripped, whitespace-normalized
cell text (the `if not header_key: continue` guard of the source is kept,
although constructed headers are never empty). -/
def rowDataStep (headers : List String) (acc : List (String × String))
    (p : Nat × String) : List (String × String) :=
  if p.1 < headers.length then
    if headers.getD p.1 "" = "" then acc
    else dictSet acc (headers.getD p.1 "") (normWs (pyStrip p.2))
  else acc

/-- One data row's `row_data` dict (a `dict`, so a duplicated header name
keeps the last cell). -/
def rowData (headers : List String) (cells : List String) :
    List (String × String) :=
  cells.enum.foldl (rowDataStep headers) []

/-- Body of the data-row loop: a row with no cells is skipped; if no
headers exist yet, `column_i` headers are created from the row's cells;
a row whose `row_data` dict is nonempty is appended. -/
def extractRowsStep (st : List String × List (List (String × String)))
    (row : List String) : List String × List (List (String × String)) :=
  if row.isEmpty then st
  else
    let headers := if st.1.isEmpty then
        (List.range row.length).map (fun i => "column_" ++ toString i)
      else st.1
    if (rowData headers row).isEmpty then (headers, st.2)
    else (headers, st.2 ++ [rowData headers row])

/-- The data-row loop over all rows of one table. -/
def extractRows (headers0 : List String) (rows : List (List String)) :
    List (List (String × String)) :=
  (rows.foldl extractRowsStep (headers0, [])).2

/-- `AdaptiveScraper.extract_table_data` over the parsed tables: headers
from the first row when it exists, remaining rows (or all rows when no
headers were found) through the data-row loop, results concatenated. -/
def extract_table_data (tables : List (List (List String))) :
    List (List (String × String)) :=
  (tables.map (fun t =>
    match t with
    | [] => []
    | firstRow :: rest =>
      let headers := mkHeaders firstRow
      if headers.isEmpty then extractRows [] (firstRow :: rest)
      else extractRows headers rest)).flatten

/-! ## Year pagination (`AdaptiveScraper.scrape_with_pagination`)

The HTTP fetch is an oracle `fetch year attempt`, `none` modelling a
raised `RequestException`; the extractor applied to a fetched page is the
oracle `extract`. -/

/-- The retry loop for one year: attempts are made while
`retries < max_retries`, stopping at the first success. -/
def fetchWithRetries (fetch : Nat → Option String) (attempt budget : Nat) :
    Option String :=
  match budget with
  | 0 => none
  | b + 1 =>
    match fetch attempt with
    | some html => some html
    | none => fetchWithRetries fetch (attempt + 1) b

/-- The records contributed by one year: on a successful fetch, the
extracted records each tagged with `item['ano'] = year`; after the retry
budget is exhausted the year contributes nothing. -/
def yearBlock (fetch : Nat → Nat → Option String)
    (extract : String → List PyRecord) (maxRetries year : Nat) : List PyRecord :=
  match fetchWithRetries (fetch year) 0 maxRetries with
  | some html => (extract html).map (fun r => dictSet r "ano" (PyValue.int year))
  | none => []

/-- `AdaptiveScraper.scrape_with_pagination`: loop over
`range(start_year, end_year + 1)`, extending `all_data` with each year's
block (mirroring `all_data.extend(year_data)`). -/
def scrape_with_pagination (fetch : Nat → Nat → Option String)
    (extract : String → List PyRecord) (startYear endYear maxRetries : Nat) :
    List PyRecord :=
  (List.range' startYear (endYear + 1 - startYear)).foldl
    (fun allData year => allData ++ yearBlock fetch extract maxRetries year) []

/-! ## String helpers (substring, prefix, lowering) -/

/-- `needle` begins the list `hay` (Python `startswith` over characters). -/
def leadsList : List Char → List Char → Bool
  | [], _ => true
  | _ :: _, [] => false
  | a :: as, b :: bs => a == b && leadsList as bs

/-- Python `needle in hay` substring test over characters. -/
def containsSub (hay needle : List Char) : Bool :=
  hay.tails.any (fun t => leadsList needle t)

/-- Python `str.lower()` over characters (ASCII fragment). -/
def lowerChars (cs : List Char) : List Char := cs.map Char.toLower

/-- Python `str.lower()`. -/
def lowerStr (s : String) : String := ⟨lowerChars s.data⟩

/-- Python `needle in hay` on strings. -/
def strContains (hay needle : String) : Bool := containsSub hay.data needle.data

/-- Python `needle in hay.lower()` with a lowercase needle (both sides are
lowered; lowering an already-lowercase needle is a no-op). -/
def strContainsLower (hay needle : String) : Bool :=
  containsSub (lowerChars hay.data) (lowerChars needle.data)

/-- Python `hay.startswith(pre)`. -/
def strStarts (s pre : String) : Bool := leadsList pre.data s.data

/-! ## Numeric parsing

Python `float(...)` / `pandas.to_numeric(..., errors='coerce')` are
modelled exactly over `ℚ` on the decimal fragment the pipeline feeds them
(`digits`, `digits.digits`, `digits.`, `.digits`); anything else fails. -/

/-- Value of a digit string. -/
def digitsVal (cs : List Char) : Nat :=
  cs.foldl (fun n c => 10 * n + (c.toNat - 48)) 0

/-- Parse a decimal literal into an exact rational (`none` = `ValueError` /
`NaN` coercion): an optional single `'.'` splitting two digit runs, not
both empty. -/
def parseFloatChars (cs : List Char) : Option ℚ :=
  let ip := cs.takeWhile (fun c => c ≠ '.')
  match cs.drop ip.length with
  | [] => if !ip.isEmpty && ip.all Char.isDigit then some ((digitsVal ip : ℚ)) else none
  | _ :: fp =>
    if fp.any (fun c => c = '.') then none
    else if ip.all Char.isDigit && fp.all Char.isDigit && (!ip.isEmpty || !fp.isEmpty) then
      some ((digitsVal ip : ℚ) + (digitsVal fp : ℚ) / (10 : ℚ) ^ fp.length)
    else none

/-- Parse a decimal literal in a string. -/
def parseNumQ (s : String) : Option ℚ := parseFloatChars s.data

/-- An exactly-integral number prints as `int64`, otherwise `float64`
(the dtype `pandas.to_numeric` gives a fully converted column). -/
def qToPyValue (q : ℚ) : PyValue := if q.den = 1 then .int q.num else .num q

/-- `pd.to_numeric(value, errors='coerce')` on one cell (`null` = `NaN`). -/
def pdToNumeric (v : PyValue) : PyValue :=
  match v with
  | .str s =>
    match parseNumQ s with
    | some q => qToPyValue q
    | none => .null
  | .int n => .int n
  | .num q => .num q
  | .null => .null

/-- One value of `df[col].str.replace('.', '').str.replace(',', '.')`
followed by `pd.to_numeric(..., errors='coerce')`: locale-aware numeric
conversion with thousands separator `.` and decimal separator `,`
(`_load_fallback_data`, numeric-column loop). -/
def localeConvert (s : String) : Option ℚ :=
  parseFloatChars
    ((s.data.filter (fun c => c ≠ '.')).map (fun c => if c = ',' then '.' else c))

/-- A text column rendered unchanged (`NaN` cells are `null`). -/
def columnAsValues (col : List (Option String)) : List PyValue :=
  col.map (fun o => match o with
    | some s => PyValue.str s
    | none => PyValue.null)

/-- The numeric-column conversion of `_load_fallback_data`: convert a text
column through `localeConvert` and keep the conversion only if the count
of successfully converted values strictly exceeds half the column length
(`numeric_col.notna().sum() > 0.5 * len(numeric_col)`). -/
def convertNumericColumn (col : List (Option String)) : List PyValue :=
  let numeric := col.map (fun c => c.bind localeConvert)
  if 2 * numeric.countP (fun o => o.isSome) > col.length then
    numeric.map (fun o => match o with
      | some q => qToPyValue q
      | none => PyValue.null)
  else columnAsValues col

/-! ## Fallback CSV loading (`ViniDataService._load_fallback_data`)

The pandas frame obtained from `pd.read_csv` is modelled as a column list
plus row-major cells; the reshaping and cleaning steps after the read are
embedded. -/

/-- A loaded data frame: column names and row-major cells. -/
structure Df where
  columns : List String
  rows : List (List PyValue)
deriving Repr

/-- A column name denotes a year: `str(col).isdigit()` (the alternative
regex `^(19|20)\d{2}$` of the source only matches digit strings, so it is
subsumed). -/
def isYearCol (c : String) : Bool := !(c == "") && c.data.all Char.isDigit

/-- Identifier column names recognized by the reshaper (case-insensitive
membership via `col.lower()`). -/
def idColNames : List String := ["id", "control", "produto", "cultivar", "país", "pais"]

/-- Index of a column name (first occurrence). -/
def colIndex : List String → String → Nat
  | [], _ => 0
  | c :: rest, name => if c = name then 0 else colIndex rest name + 1

/-- The cell of a row under a named column. -/
def cellAt (cols : List String) (row : List PyValue) (c : String) : PyValue :=
  row.getD (colIndex cols c) PyValue.null

/-- One melted output row: the identifier cells, then the year-column name
under `ano`, then that column's cell under `valor`. -/
def meltRow (cols : List String) (ids : List String) (vc : String)
    (r : List PyValue) : List PyValue :=
  ids.map (cellAt cols r) ++ [PyValue.str vc, cellAt cols r vc]

/-- `pd.melt(df, id_vars=ids, value_vars=valueCols, var_name='ano',
value_name='valor')`: one output row per (value column, input row), value
columns outermost. -/
def melt (df : Df) (ids : List String) (valueCols : List String) : Df :=
  { columns := ids ++ ["ano", "valor"]
    rows := (valueCols.map (fun vc => df.rows.map (meltRow df.columns ids vc))).flatten }

/-- The wide-to-long reshape of `_load_fallback_data` (lines 557-591):
detect year columns, pick recognized identifier columns (else the first
non-year column when other columns exist), melt, and convert the melted
`ano` column to numeric. -/
def reshapeFallback (df : Df) : Df :=
  let yearCols := df.columns.filter isYearCol
  if yearCols.length > 0 then
    let idCols0 := df.columns.filter (fun c => idColNames.contains (lowerStr c))
    let idCols := if idCols0.isEmpty && df.columns.length > yearCols.length then
        (df.columns.filter (fun c => !(isYearCol c))).take 1
      else idCols0
    if !idCols.isEmpty then
      let melted := melt df idCols yearCols
      { melted with rows := melted.rows.map (fun r =>
          r.enum.map (fun p => if p.1 = idCols.length then pdToNumeric p.2 else p.2)) }
    else df
  else df

/-- Sentinel replacement of `_load_fallback_data`: the exact strings `nd`,
`*`, `-` become `NaN` (per object column, hence elementwise on strings). -/
def sentinelClean (v : PyValue) : PyValue :=
  match v with
  | .str s => if s = "nd" || s = "*" || s = "-" then .null else .str s
  | .int n => .int n
  | .num q => .num q
  | .null => .null

/-- Replace the `i`-th cell of every row by the corresponding value. -/
def setColumn (df : Df) (i : Nat) (vals : List PyValue) : Df :=
  { df with rows := (df.rows.zip vals).map (fun p => p.1.set i p.2) }

/-- The post-read pipeline of `_load_fallback_data`: reshape wide to long,
replace sentinels, then attempt locale-aware numeric conversion on every
text column except `ano` (a column qualifies as `dtype == object` when all
its cells are strings or `NaN`). -/
def loadFallbackPostprocess (df0 : Df) : Df :=
  let df1 := reshapeFallback df0
  let df2 : Df := { df1 with rows := df1.rows.map (fun r => r.map sentinelClean) }
  df2.columns.enum.foldl (fun df p =>
    if p.2 = "ano" then df
    else
      let col := df.rows.map (fun r => r.getD p.1 PyValue.null)
      if col.all (fun v => match v with
          | PyValue.str _ => true
          | PyValue.null => true
          | _ => false) then
        setColumn df p.1 (convertNumericColumn (col.map (fun v => match v with
          | PyValue.str s => some s
          | _ => none)))
      else df) df2

/-! ## Sanitization (`_sanitize_for_json`, `_clean_data_for_export`) -/

/-- Python `str(value)` for the scalar values of the model (used only for
emptiness and substring tests). -/
def pyStr (v : PyValue) : String :=
  match v with
  | .str s => s
  | .int n => toString n
  | .num q => toString q
  | .null => "None"

/-- Python `repr` of a scalar value inside a `dict`/`values` display. -/
def pyReprValue (v : PyValue) : String :=
  match v with
  | .str s => "'" ++ s ++ "'"
  | .int n => toString n
  | .num q => toString q
  | .null => "None"

/-- Approximation of Python `str(dict)` used only for substring keyword
tests over a record's content. -/
def pyReprRecord (r : PyRecord) : String :=
  "\x7b" ++ String.intercalate ", "
    (r.map (fun p => "'" ++ p.1 ++ "': " ++ pyReprValue p.2)) ++ "\x7d"

/-- Navigation tokens filtered by the export cleaner. -/
def navTokens : List String := ["DOWNLOAD", "TOPO", "« ‹ › »"]

/-- `any(nav in str(item.values()) for nav in [...])`: the tokens contain
no quote or comma, so the test is equivalent to some value's string
containing the token. -/
def rowHasNav (r : PyRecord) : Bool :=
  navTokens.any (fun nav => r.any (fun p => strContains (pyReprValue p.2) nav))

/-- `clean_value` inside `_sanitize_for_json`: empty or dash-only strings
become `None`; a string with a comma and no dot is converted through the
European number format (thousands `.` stripped, `,` to `.`) when the
result parses, else kept; exact rationals have no `NaN`/`inf`, and numpy
types and nesting do not occur in the model, so those source branches are
vacuous here. -/
def clean_value (v : PyValue) : PyValue :=
  match v with
  | .str s =>
    if pyStrip s = "" || pyStrip s = "-" then .null
    else if s.data.any (fun c => c = ',') && !(s.data.any (fun c => c = '.')) then
      match parseFloatChars
          ((s.data.filter (fun c => c ≠ '.')).map (fun c => if c = ',' then '.' else c)) with
      | some q => .num q
      | none => .str s
    else .str s
  | .int n => .int n
  | .num q => .num q
  | .null => .null

/-- `_clean_data_for_export`: drop columns whose name starts with
`column_` or mentions copyright/livramento/embrapa; skip navigation rows
and rows with at most one truthy nonblank value; drop very long
metadata-looking strings; strip string values; keep only items with more
than one key. -/
def clean_data_for_export (data : List PyRecord) : List PyRecord :=
  let allKeys := (data.map (fun r => r.map (fun p => p.1))).flatten.eraseDups
  let columnsToRemove := allKeys.filter (fun col =>
    strStarts col "column_" || strContainsLower col "copyright" ||
    strContainsLower col "livramento" || strContainsLower col "embrapa")
  data.foldl (fun acc item =>
    if rowHasNav item then acc
    else if item.countP (fun p => p.2.truthy && !(pyStrip (pyStr p.2) == "")) ≤ 1 then acc
    else
      let cleanItem := item.foldl (fun ci p =>
        if columnsToRemove.contains p.1 then ci
        else match p.2 with
          | PyValue.str s =>
            if s.length > 200 &&
                (strContainsLower s "banco de dados" || strContainsLower s "download") then ci
            else dictSet ci p.1 (PyValue.str (pyStrip s))
          | v => dictSet ci p.1 v) []
      if !cleanItem.isEmpty && cleanItem.length > 1 then acc ++ [cleanItem] else acc) []

/-- `_sanitize_for_json`: empty input short-circuits; otherwise the export
cleaning followed by `clean_value` on every field. -/
def sanitize_for_json (data : List PyRecord) : List PyRecord :=
  if data.isEmpty then []
  else (clean_data_for_export data).map (fun r => r.map (fun p => (p.1, clean_value p.2)))

/-! ## Filtering (`ViniDataService._filter_data`) -/

/-- Python `int(str)`: optional surrounding whitespace and sign, digits. -/
def pyIntOfString (s : String) : Option Int :=
  match pyStripChars s.data with
  | [] => none
  | '-' :: ds =>
    if !ds.isEmpty && ds.all Char.isDigit then some (-(digitsVal ds : Int)) else none
  | '+' :: ds =>
    if !ds.isEmpty && ds.all Char.isDigit then some ((digitsVal ds : Int)) else none
  | ds => if ds.all Char.isDigit then some ((digitsVal ds : Int)) else none

/-- The year value of a record: `ano` or else `Ano`. -/
def yearValue (item : PyRecord) : Option PyValue :=
  match item.lookup "ano" with
  | some v => some v
  | none => item.lookup "Ano"

/-- Year resolution for the year filter: `none` = drop the record (string
`int()` conversion failed); `some none` = no year (record is included);
`some (some y)` = compare `y` against the bounds. -/
def recordYear (item : PyRecord) : Option (Option ℚ) :=
  match yearValue item with
  | none => some none
  | some PyValue.null => some none
  | some (PyValue.int n) => some (some ((n : ℚ)))
  | some (PyValue.num q) => some (some q)
  | some (PyValue.str s) =>
    match pyIntOfString s with
    | some n => some (some ((n : ℚ)))
    | none => none

/-- Truthiness of an optional string argument (`None` and `""` falsy). -/
def optTruthy (o : Option String) : Bool :=
  match o with
  | some s => !(s == "")
  | none => false

/-- `o or ""`. -/
def optStr (o : Option String) : String := o.getD ""

/-- One field-list filter of `_filter_data`: keep records where some field
exists, is truthy, and contains the lowered needle. -/
def fieldFilter (fields : List String) (needle : String) (data : List PyRecord) :
    List PyRecord :=
  data.filter (fun item =>
    fields.any (fun f =>
      match item.lookup f with
      | some v => v.truthy && strContainsLower (pyStr v) (lowerStr needle)
      | none => false))

/-- `ViniDataService._filter_data`. -/
def filter_data (data : List PyRecord) (startYear endYear : Option Int)
    (region productType channel origin destination : Option String) : List PyRecord :=
  if data.isEmpty then []
  else
    let d1 := if startYear.isSome || endYear.isSome then
        data.filter (fun item =>
          match recordYear item with
          | none => false
          | some none => true
          | some (some y) =>
            (match startYear with
             | some sy => !(y < ((sy : ℚ)))
             | none => true) &&
            (match endYear with
             | some ey => !(((ey : ℚ)) < y)
             | none => true))
      else data
    let d2 := if optTruthy region then
        fieldFilter ["Regiao", "regiao", "Região", "região", "Region", "region"]
          (optStr region) d1
      else d1
    let d3 := if optTruthy productType then
        fieldFilter ["Produto", "produto", "tipo", "Tipo", "cultivar", "Cultivar"]
          (optStr productType) d2
      else d2
    let d4 := if optTruthy channel then
        fieldFilter ["Canal", "canal", "Canais", "canais"] (optStr channel) d3
      else d3
    let d5 := if optTruthy origin then
        fieldFilter ["Origem", "origem", "País", "país", "Pais", "pais", "Origin", "origin"]
          (optStr origin) d4
      else d4
    if optTruthy destination then
      fieldFilter ["Destino", "destino", "País", "país", "Pais", "pais", "Destination"]
        (optStr destination) d5
    else d5

/-! ## Subcategory classifier (`detect_subcategory_from_data`) -/

/-- Modelled from the spec: the scraper's `CULTIVAR_TYPE_MAPPING` table
(category → subcategory → cultivar keyword lists) is referenced by
`detect_subcategory_from_data` as `self.scraper.CULTIVAR_TYPE_MAPPING`,
but its definition is not among the provided sources of
`adaptive_scraper.py`; the buckets and sample keywords follow the spec's
classifier description (cultivar names grouped by grape-type family,
vinifera examples "Cabernet Sauvignon"/"Merlot") and the repository's
tests. -/
def CULTIVAR_TYPE_MAPPING : List (String × List (String × List String)) :=
  [("processamento",
    [("viniferas", ["Cabernet Sauvignon", "Merlot", "Alicante Bouschet", "Ancelota"]),
     ("americanas", ["Isabel", "Bordô", "Niagara"]),
     ("mesa", ["Italia", "Rubi", "Crimson"])])]

/-- `any(c.lower() in cultivar.lower() for c in cultivar_list)`. -/
def matchesKeywords (kws : List String) (cultivar : String) : Bool :=
  kws.any (fun kw => containsSub (lowerChars cultivar.data) (lowerChars kw.data))

/-- The truthy `Cultivar` strings of a batch (in the source a non-string
truthy `Cultivar` value would raise on `.lower()`; such records are
outside the modelled fragment). -/
def extractCultivares (data : List PyRecord) : List String :=
  data.filterMap (fun item =>
    match item.lookup "Cultivar" with
    | some (PyValue.str s) => if s = "" then none else some s
    | _ => none)

/-- Python `max(items, key=count)`: the first item with the maximal count
(strict improvement only). -/
def argmaxFirst (c0 : String × Nat) (rest : List (String × Nat)) : String × Nat :=
  rest.foldl (fun best p => if p.2 > best.2 then p else best) c0

/-- Export/import branch of the detector: keyword groups scanned in order
over the concatenated record texts. -/
def exportKeywordGroups : List (List String × String) :=
  [(["vinho", "vinhos", "cabernet", "merlot", "chardonnay"], "vinhos"),
   (["espumante", "espumantes", "champagne", "moscatel"], "espumantes"),
   (["suco", "sucos", "concentrado"], "sucos"),
   (["uva", "uvas", "fresca", "frescas", "mesa"], "uvas")]

/-- The `exportacao`/`importacao` branch of
`detect_subcategory_from_data`: only `exportacao` data with a `Países`
column is classified, by the first keyword group matching the concatenated
record texts, defaulting to `vinhos`. -/
def detectExportImport (category : String) (data : List PyRecord) : Option String :=
  let columnNames := (data.map (fun r => r.map (fun p => p.1))).flatten.eraseDups
  if columnNames.contains "Países" && category = "exportacao" then
    let allText := String.join (data.map pyReprRecord)
    match exportKeywordGroups.find? (fun g => g.1.any (fun kw => strContainsLower allText kw)) with
    | some g => some g.2
    | none => some "vinhos"
  else none

/-- `ViniDataService.detect_subcategory_from_data` (the spec's
`detect_dominant`): `none` for fewer than 2 records; for `processamento`,
tally each bucket's keyword matches over the truthy `Cultivar` fields and
return the first bucket with the strictly maximal positive count (`none`
when no cultivar or no match); for `exportacao`/`importacao`, the keyword
scan; otherwise `none`. -/
def detect_subcategory_from_data (category : String) (data : List PyRecord) :
    Option String :=
  if data.length < 2 then none
  else if category = "processamento" && (CULTIVAR_TYPE_MAPPING.lookup category).isSome then
    let buckets := (CULTIVAR_TYPE_MAPPING.lookup category).getD []
    let cultivares := extractCultivares data
    if cultivares.isEmpty then none
    else
      match buckets.map (fun b => (b.1, cultivares.countP (matchesKeywords b.2))) with
      | [] => none
      | c0 :: rest =>
        if (argmaxFirst c0 rest).2 > 0 then some (argmaxFirst c0 rest).1 else none
  else if category = "exportacao" || category = "importacao" then
    detectExportImport category data
  else none

/-! ## Orchestration (`ViniDataService.get_data`)

The scrape, the recovery parser and the fallback file loader perform I/O;
they enter the model as oracles in `GetDataEnv`.  The global cache is a
`ResilientCache` state with the current clock. -/

/-- The scrape envelope (`ScrapedData`); `timestampN` stands for the float
timestamp. -/
structure ScrapedDataM where
  source_url : String
  timestampN : Nat
  data : List PyRecord
  metadata : List (String × PyValue)
  raw_html : Option String

/-- Number of keys of a record (`len(item.keys())`; record keys are unique
in dicts). -/
def distinctKeyCount (r : PyRecord) : Nat := (r.map (fun p => p.1)).eraseDups.length

/-- `ViniDataService._validate_scraped_data`: a list is required
(structural in the model), the empty list is valid, all items must be
dicts (structural), and some record among the first 10 must have a key
besides `ano`. -/
def validate_scraped_data (d : List PyRecord) : Bool :=
  if d.length = 0 then true
  else (d.take 10).any (fun r => distinctKeyCount r > 1)

/-- `ViniDataService._attempt_data_recovery`, with `_parse_raw_html`
modelled as the oracle `parseRawHtml html url` (`none` = parsing raised,
including `raw_html = None` fed to BeautifulSoup): recovery succeeds only
when the re-parse yields at least one record. -/
def attempt_data_recovery (parseRawHtml : String → String → Option (List PyRecord))
    (sd : ScrapedDataM) : Option ScrapedDataM :=
  match sd.raw_html with
  | none => none
  | some html =>
    match parseRawHtml html sd.source_url with
    | none => none
    | some recovered =>
      if recovered.length > 0 then some { sd with data := recovered, raw_html := none }
      else none

/-- The result dict flowing through `get_data` (`fallback_used` falsy for
scraped/cached data, true for fallback files). -/
structure ResultDict where
  data : List PyRecord
  metadata : List (String × PyValue)
  fallback_used : Bool

/-- `scraped_data.dict()`. -/
def ScrapedDataM.toResult (sd : ScrapedDataM) : ResultDict :=
  { data := sd.data, metadata := sd.metadata, fallback_used := false }

/-- The inner `fetch_data` closure of `get_data`: a raising scrape (e.g.
unknown category) is absorbed to `none`; invalid data triggers recovery;
failed recovery raises `ValueError`, also absorbed to `none`. -/
def fetchData (scrape : Except Unit ScrapedDataM)
    (parseRawHtml : String → String → Option (List PyRecord)) : Option ResultDict :=
  match scrape with
  | .error _ => none
  | .ok sd =>
    if validate_scraped_data sd.data then some sd.toResult
    else
      match attempt_data_recovery parseRawHtml sd with
      | some rd => some rd.toResult
      | none => none

/-- The I/O environment of one `get_data` invocation. -/
structure GetDataEnv where
  cache : ResilientCache ResultDict
  now : Nat
  scrape : Except Unit ScrapedDataM
  parseRawHtml : String → String → Option (List PyRecord)
  loadFallback : Option String → Option ResultDict

/-- The arguments of `get_data`. -/
structure GetDataArgs where
  category : String
  startYear : Int := 1970
  endYear : Int := 2025
  region : Option String := none
  productType : Option String := none
  subcategory : Option String := none
  channel : Option String := none
  origin : Option String := none
  destination : Option String := none

/-- `ViniDataService._map_product_type_to_subcategory`. -/
def map_product_type_to_subcategory (category productType : String) : Option String :=
  let mapping : List (String × List (String × String)) :=
    [("processamento",
      [("vinifera", "viniferas"), ("viniferas", "viniferas"),
       ("americana", "americanas"), ("americanas", "americanas"), ("mesa", "mesa")]),
     ("importacao",
      [("vinho", "vinhos"), ("vinhos", "vinhos"), ("suco", "sucos"), ("sucos", "sucos"),
       ("espumante", "espumantes"), ("espumantes", "espumantes"),
       ("passa", "passas"), ("passas", "passas"), ("fresca", "frescas"),
       ("frescas", "frescas"), ("uvas frescas", "frescas")]),
     ("exportacao",
      [("vinho", "vinhos"), ("vinhos", "vinhos"), ("suco", "sucos"), ("sucos", "sucos"),
       ("espumante", "espumantes"), ("espumantes", "espumantes"),
       ("uva", "uvas"), ("uvas", "uvas")])]
  match mapping.lookup category with
  | some m => m.lookup (lowerStr productType)
  | none => none

/-- `if not subcategory and product_type: subcategory = map(...)` — the
mapping result replaces the subcategory even when it is `None`. -/
def effectiveSubcategory (a : GetDataArgs) : Option String :=
  if !(optTruthy a.subcategory) && optTruthy a.productType then
    map_product_type_to_subcategory a.category (optStr a.productType)
  else a.subcategory

/-- The cache key of `get_data`. -/
def buildCacheKey (a : GetDataArgs) (sub : Option String) : String :=
  let base := a.category ++ (if optTruthy sub then "_" ++ optStr sub else "") ++
    "_" ++ toString a.startYear ++ "_" ++ toString a.endYear
  if optTruthy a.region || optTruthy a.productType || optTruthy a.channel ||
      optTruthy a.origin || optTruthy a.destination then
    base ++ "_filters_" ++
      (if optTruthy a.region then "r" ++ optStr a.region else "") ++
      (if optTruthy a.productType then "p" ++ optStr a.productType else "") ++
      (if optTruthy a.channel then "c" ++ optStr a.channel else "") ++
      (if optTruthy a.origin then "o" ++ optStr a.origin else "") ++
      (if optTruthy a.destination then "d" ++ optStr a.destination else "")
  else base

/-- The result of `get_data`: either the error dict
`{"error": ..., "data": [], "fallback_used": True}` or the success dict. -/
inductive GetDataResult where
  | noData (error : String) (data : List PyRecord) (fallback_used : Bool)
  | ok (metadata : List (String × PyValue)) (data : List PyRecord)
      (from_cache : Bool) (data_source : String) (total_records : Nat)

/-- `ViniDataService.get_data`: map product type to subcategory, consult
the cache (no fetch function is passed to `data_cache.get`), else scrape
with validation and recovery, else the fallback file for the subcategory,
else the category default; on total exhaustion the error dict; otherwise
filter, optionally auto-detect the subcategory into the metadata, sanitize
and assemble the response. -/
def get_data (env : GetDataEnv) (a : GetDataArgs) : GetDataResult :=
  let subcategory := effectiveSubcategory a
  let cached := (cacheGet env.cache env.now (buildCacheKey a subcategory) none).1
  let result0 := match cached with
    | some c => some c
    | none => fetchData env.scrape env.parseRawHtml
  let result1 := match result0 with
    | some r => some r
    | none =>
      match env.loadFallback subcategory with
      | some fb => some fb
      | none => if optTruthy subcategory then env.loadFallback none else none
  match result1 with
  | none => GetDataResult.noData "Data retrieval failed" [] true
  | some result =>
    let dataSource := if cached.isSome then "cache"
      else if result.fallback_used then "fallback_file" else "online"
    let filtered := filter_data result.data (some a.startYear) (some a.endYear)
      a.region a.productType a.channel a.origin a.destination
    let metadataSubFalsy := match result.metadata.lookup "subcategory" with
      | some v => !v.truthy
      | none => true
    let metadata1 := if !(optTruthy subcategory) && metadataSubFalsy then
        match detect_subcategory_from_data a.category filtered with
        | some det =>
          dictSet (dictSet result.metadata "subcategory" (PyValue.str det))
            "subcategory_detection" (PyValue.str "automatic")
        | none => result.metadata
      else result.metadata
    let sanitized := sanitize_for_json filtered
    GetDataResult.ok metadata1 sanitized cached.isSome dataSource sanitized.length

lemma applyOp_maxSize {V : Type} (st : ResilientCache V) (op : CacheOp V) :
    (applyOp st op).maxSize = st.maxSize := by
  cases op with
  | get now key fetch =>
    simp only [applyOp, cacheGet]
    cases freshLookup st now key with
    | some v => rfl
    | none =>
      cases fetch with
      | some f =>
        cases f with
        | some v => rfl
        | none =>
          simp only [histReturn]
          cases histLookup st key with
          | some v =>
            simp only [touchHist]
            cases st.hist.find? (fun e => e.1 == key) with
            | some e => rfl
            | none => rfl
          | none => rfl
      | none =>
        simp only [histReturn]
        cases histLookup st key with
        | some v =>
          simp only [touchHist]
          cases st.hist.find? (fun e => e.1 == key) with
          | some e => rfl
          | none => rfl
        | none => rfl
  | set now key v => rfl
  | invalidate now key =>
    simp only [applyOp, cacheInvalidate]
    split <;> rfl
  | clear => rfl

lemma filter_length_lt_of_find? {V : Type} (l : List (String × V)) (key : String) (e : String × V)
    (h : l.find? (fun x => x.1 == key) = some e) :
    (l.filter (fun x => !(x.1 == key))).length < l.length := by
  induction l with
  | nil => simp at h
  | cons a rest ih =>
    cases ha : (a.1 == key) with
    | true =>
      have hle := List.length_filter_le (fun x => !(x.1 == key)) rest
      simp only [List.filter_cons, ha, Bool.not_true, List.length_cons,
        Bool.false_eq_true, if_false]
      omega
    | false =>
      rw [List.find?_cons_of_neg _ (by simp [ha])] at h
      have := ih h
      simp only [List.filter_cons, ha, Bool.not_false, if_true, List.length_cons]
      omega

lemma applyOp_histBound {V : Type} (st : ResilientCache V) (op : CacheOp V)
    (h : histBound st) : histBound (applyOp st op) := by
  have hms := applyOp_maxSize st op
  cases op with
  | get now key fetch =>
    simp only [applyOp, cacheGet] at hms ⊢
    cases hfl : freshLookup st now key with
    | some v => simpa [hfl] using h
    | none =>
      simp only [hfl]
      have hhr : histBound (histReturn st key).2 := by
        simp only [histReturn]
        cases hh : histLookup st key with
        | some v =>
          simp only [hh, touchHist]
          cases hf : st.hist.find? (fun e => e.1 == key) with
          | some e =>
            simp only [histBound, List.length_cons]
            have := filter_length_lt_of_find? st.hist key e hf
            have hb := h
            simp only [histBound] at hb
            omega
          | none => simpa using h
        | none => simpa using h
      cases fetch with
      | some f =>
        cases f with
        | some v =>
          simp only [histBound, cacheSet]
          calc (((key, v) :: st.hist.filter (fun e => !(e.1 == key))).take
                  (2 * st.maxSize)).length ≤ 2 * st.maxSize := by
                simp [List.length_take]
            _ = 2 * st.maxSize := rfl
        | none => exact hhr
      | none => exact hhr
  | set now key v =>
    simp only [applyOp, histBound, cacheSet]
    simp [List.length_take]
  | invalidate now key =>
    simp only [applyOp, cacheInvalidate]
    split
    · simpa [histBound] using h
    · exact h
  | clear => simpa [applyOp, cacheClear, histBound] using h

lemma foldl_applyOp_histBound {V : Type} (ops : List (CacheOp V)) (st : ResilientCache V)
    (h : histBound st) : histBound (ops.foldl applyOp st) := by
  induction ops generalizing st with
  | nil => simpa using h
  | cons op rest ih => exact ih _ (applyOp_histBound st op h)

lemma cacheSet_fresh_head {V : Type} (st : ResilientCache V) (now : Nat) (key : String)
    (v : V) (hms : 1 ≤ st.maxSize) :
    ∃ rest, (cacheSet st now key v).fresh = (key, v, now + st.ttl) :: rest := by
  simp only [cacheSet]
  obtain ⟨k, hk⟩ : ∃ k, st.maxSize = k + 1 := ⟨st.maxSize - 1, by omega⟩
  exact ⟨_, by rw [hk, List.take_succ_cons]⟩

lemma cacheSet_freshLookup_self {V : Type} (st : ResilientCache V) (now : Nat) (key : String)
    (v : V) (hms : 1 ≤ st.maxSize) (m : Nat) :
    freshLookup (cacheSet st now key v) m key =
      if m < now + st.ttl then some v else none := by
  obtain ⟨rest, hr⟩ := cacheSet_fresh_head st now key v hms
  simp only [freshLookup, hr]
  rw [List.find?_cons_of_pos _ (by simp)]

lemma cacheSet_freshLookup {V : Type} (st : ResilientCache V) (now : Nat) (key : String)
    (v : V) (hms : 1 ≤ st.maxSize) (httl : 1 ≤ st.ttl) :
    freshLookup (cacheSet st now key v) now key = some v := by
  rw [cacheSet_freshLookup_self st now key v hms]
  have : now < now + st.ttl := by omega
  simp [this]

lemma cacheSet_histLookup {V : Type} (st : ResilientCache V) (now : Nat) (key : String)
    (v : V) (hms : 1 ≤ st.maxSize) :
    histLookup (cacheSet st now key v) key = some v := by
  simp only [cacheSet, histLookup]
  obtain ⟨k, hk⟩ : ∃ k, 2 * st.maxSize = k + 1 := ⟨2 * st.maxSize - 1, by omega⟩
  rw [hk, List.take_succ_cons, List.find?_cons_of_pos]
  · rfl
  · simp

lemma cacheInvalidate_hist {V : Type} (st : ResilientCache V) (now : Nat) (key : String) :
    (cacheInvalidate st now key).hist = st.hist := by
  simp only [cacheInvalidate]
  split <;> rfl

lemma cacheInvalidate_freshLookup_none {V : Type} (st : ResilientCache V) (n1 n2 n3 : Nat)
    (key : String) (v : V) (hms : 1 ≤ st.maxSize) (h12 : n1 ≤ n2) (h23 : n2 ≤ n3) :
    freshLookup (cacheInvalidate (cacheSet st n1 key v) n2 key) n3 key = none := by
  cases hv : (freshLookup (cacheSet st n1 key v) n2 key).isSome with
  | true =>
    simp only [cacheInvalidate, hv, if_true]
    simp only [freshLookup]
    rw [List.find?_eq_none.mpr]
    intro x hx
    have := List.of_mem_filter hx
    simp at this
    simp [this]
  | false =>
    simp only [cacheInvalidate, hv, Bool.false_eq_true, if_false]
    rw [cacheSet_freshLookup_self st n1 key v hms] at hv ⊢
    rcases Nat.lt_or_ge n2 (n1 + st.ttl) with h | h
    · simp [h] at hv
    · have : ¬ (n3 < n1 + st.ttl) := by omega
      simp [this]

/-- Claim C9: `invalidate(key)` removes the key from the fresh (TTL) store
only and leaves the historical store unchanged; consequently, after
`set(key, v)` followed by `invalidate(key)`, a later `get(key)` with no
fetch function, or with a fetch function that raises, still returns `v`
from the historical store.  Clock values are monotone across the three
operations. -/
theorem cache_invalidate_frame (V : Type) (st : ResilientCache V)
    (n1 n2 n3 : Nat) (key : String) (v : V)
    (hms : 1 ≤ st.maxSize) (h12 : n1 ≤ n2) (h23 : n2 ≤ n3) :
    (cacheInvalidate (cacheSet st n1 key v) n2 key).hist = (cacheSet st n1 key v).hist ∧
    freshLookup (cacheInvalidate (cacheSet st n1 key v) n2 key) n3 key = none ∧
    (cacheGet (cacheInvalidate (cacheSet st n1 key v) n2 key) n3 key none).1 = some v ∧
    (cacheGet (cacheInvalidate (cacheSet st n1 key v) n2 key) n3 key (some none)).1 = some v := by
  have hfresh := cacheInvalidate_freshLookup_none st n1 n2 n3 key v hms h12 h23
  have hhist : histLookup (cacheInvalidate (cacheSet st n1 key v) n2 key) key = some v := by
    simp only [histLookup, cacheInvalidate_hist]
    have := cacheSet_histLookup st n1 key v hms
    simpa [histLookup] using this
  refine ⟨cacheInvalidate_hist _ n2 key, hfresh, ?_, ?_⟩
  · simp [cacheGet, hfresh, histReturn, hhist]
  · simp [cacheGet, hfresh, histReturn, hhist]

/-- Claim C9 witness: a concrete instantiation with `max_size = 2`,
`ttl = 10`, key `"k"`, value `3`, at times `0 ≤ 1 ≤ 2`. -/
theorem cache_invalidate_frame_witness :
    (1 ≤ (mkResilientCache Nat (some 2) (some 10)).maxSize ∧ (0 : Nat) ≤ 1 ∧ (1 : Nat) ≤ 2) ∧
    ((cacheInvalidate (cacheSet (mkResilientCache Nat (some 2) (some 10)) 0 "k" 3) 1 "k").hist =
        (cacheSet (mkResilientCache Nat (some 2) (some 10)) 0 "k" 3).hist ∧
      freshLookup (cacheInvalidate (cacheSet (mkResilientCache Nat (some 2) (some 10)) 0 "k" 3)
        1 "k") 2 "k" = none ∧
      (cacheGet (cacheInvalidate (cacheSet (mkResilientCache Nat (some 2) (some 10)) 0 "k" 3)
        1 "k") 2 "k" none).1 = some 3 ∧
      (cacheGet (cacheInvalidate (cacheSet (mkResilientCache Nat (some 2) (some 10)) 0 "k" 3)
        1 "k") 2 "k" (some none)).1 = some 3) :=
  ⟨⟨by decide, by decide, by decide⟩,
   cache_invalidate_frame Nat (mkResilientCache Nat (some 2) (some 10)) 0 1 2 "k" 3
     (by decide) (by decide) (by decide)⟩

/-- Claim C8: a successful `set` stores the value in both the fresh (TTL)
store and the historical store (both updates happen inside one lock
acquisition in the source, so `cacheSet` models them as a single atomic
state transition), and the historical store is size-bounded by LRU
eviction at exactly twice the fresh store's capacity — an invariant
preserved by every sequence of cache operations starting from a freshly
initialised cache; moreover the historical-fallback result of `get` is
independent of the clock (historical entries have no time-based expiry). -/
theorem cache_set_dual_store_invariant :
    (∀ (V : Type) (st : ResilientCache V) (now : Nat) (key : String) (v : V),
      1 ≤ st.maxSize → 1 ≤ st.ttl →
      freshLookup (cacheSet st now key v) now key = some v ∧
      histLookup (cacheSet st now key v) key = some v) ∧
    (∀ (V : Type) (ms t : Option Nat) (ops : List (CacheOp V)),
      (ops.foldl applyOp (mkResilientCache V ms t)).hist.length ≤
        2 * (ops.foldl applyOp (mkResilientCache V ms t)).maxSize) ∧
    (∀ (V : Type) (st : ResilientCache V) (m1 m2 : Nat) (key : String),
      freshLookup st m1 key = none → freshLookup st m2 key = none →
      (cacheGet st m1 key (some none)).1 = (cacheGet st m2 key (some none)).1) := by
  refine ⟨?_, ?_, ?_⟩
  · intro V st now key v hms httl
    exact ⟨cacheSet_freshLookup st now key v hms httl, cacheSet_histLookup st now key v hms⟩
  · intro V ms t ops
    have h0 : histBound (mkResilientCache V ms t) := by
      simp [histBound, mkResilientCache]
    exact foldl_applyOp_histBound ops _ h0
  · intro V st m1 m2 key h1 h2
    simp [cacheGet, h1, h2]

/-- Claim C8 witness: a default-configured cache (`max_size = 100`,
`ttl = 86400`) stores key `"k"` value `5` in both tiers on `set`. -/
theorem cache_set_dual_store_invariant_witness :
    (1 ≤ (mkResilientCache Nat none none).maxSize ∧
      1 ≤ (mkResilientCache Nat none none).ttl) ∧
    (freshLookup (cacheSet (mkResilientCache Nat none none) 0 "k" 5) 0 "k" = some 5 ∧
      histLookup (cacheSet (mkResilientCache Nat none none) 0 "k" 5) "k" = some 5) :=
  ⟨⟨by decide, by decide⟩,
   cache_set_dual_store_invariant.1 Nat (mkResilientCache Nat none none) 0 "k" 5
     (by decide) (by decide)⟩

/-- Claim C2 counterexample: with `max_size = 1` (historical capacity `2`),
key `"k"` is successfully `set` (second conjunct shows the historical entry
existed), but two later `set`s of other keys evict it from the historical
store by LRU pressure; a subsequent `get("k", fetch_fn)` whose fetch
function raises then returns `none`, not the previously stored value `7`,
refuting the claim as stated. -/
theorem cache_fallback_eviction_cex :
    histLookup (cacheSet (mkResilientCache Nat (some 1) (some 1000)) 0 "k" 7) "k" = some 7 ∧
    (cacheGet (cacheSet (cacheSet (cacheSet (mkResilientCache Nat (some 1) (some 1000))
        0 "k" 7) 0 "a" 8) 0 "b" 9) 0 "k" (some none)).1 = none := by
  constructor
  · decide
  · decide

/-- Claim C2 (amended): `set(key, value)` establishes the historical entry
whenever the cache capacity is nonzero, and if a later `get(key, fetch_fn)`
misses the fresh (TTL) store, `fetch_fn` raises, and the key has not
meanwhile been evicted from the historical store by LRU pressure (i.e. the
historical store still maps the key, necessarily to the most recently
stored value), then `get` returns that value rather than `none`. -/
theorem cache_fallback_historical_amended :
    (∀ (V : Type) (st : ResilientCache V) (now : Nat) (key : String) (v : V),
      1 ≤ st.maxSize → histLookup (cacheSet st now key v) key = some v) ∧
    (∀ (V : Type) (st : ResilientCache V) (now : Nat) (key : String) (v : V),
      histLookup st key = some v → freshLookup st now key = none →
      (cacheGet st now key (some none)).1 = some v) := by
  constructor
  · intro V st now key v hms
    exact cacheSet_histLookup st now key v hms
  · intro V st now key v hh hf
    simp [cacheGet, hf, histReturn, hh]

/-- Claim C2 (amended) witness: `set` at time 0 with `ttl = 1`, then a
`get` at time 5 (fresh entry expired, fetch raises) returns the stored
value from the historical store. -/
theorem cache_fallback_historical_amended_witness :
    histLookup (cacheSet (mkResilientCache Nat (some 1) (some 1)) 0 "k" 7) "k" = some 7 ∧
    (cacheGet (cacheSet (mkResilientCache Nat (some 1) (some 1)) 0 "k" 7) 5 "k"
      (some none)).1 = some 7 :=
  ⟨cache_fallback_historical_amended.1 Nat (mkResilientCache Nat (some 1) (some 1)) 0 "k" 7
     (by decide),
   cache_fallback_historical_amended.2 Nat
     (cacheSet (mkResilientCache Nat (some 1) (some 1)) 0 "k" 7) 5 "k" 7
     (by decide) (by decide)⟩

lemma splitWords_ok : ∀ (cs acc : List Char), acc.all (fun c => !c.isWhitespace) = true →
    ∀ w ∈ splitWords cs acc, w ≠ [] ∧ w.all (fun c => !c.isWhitespace) = true := by
  intro cs
  induction cs with
  | nil =>
    intro acc hacc w hw
    simp only [splitWords] at hw
    by_cases he : acc.isEmpty
    · simp [he] at hw
    · rw [if_neg he] at hw
      have hw' : w = acc.reverse := by simpa using hw
      subst hw'
      refine ⟨?_, by simpa [List.all_reverse] using hacc⟩
      intro hnil
      rw [List.reverse_eq_nil_iff] at hnil
      subst hnil
      simp at he
  | cons c cs ih =>
    intro acc hacc w hw
    simp only [splitWords] at hw
    by_cases hcw : c.isWhitespace
    · rw [if_pos hcw] at hw
      by_cases he : acc.isEmpty
      · rw [if_pos he] at hw
        exact ih [] (by simp) w hw
      · rw [if_neg he] at hw
        rcases List.mem_cons.mp hw with hw' | hw'
        · subst hw'
          refine ⟨?_, by simpa [List.all_reverse] using hacc⟩
          intro hnil
          rw [List.reverse_eq_nil_iff] at hnil
          subst hnil
          simp at he
        · exact ih [] (by simp) w hw'
    · rw [if_neg hcw] at hw
      refine ih (c :: acc) ?_ w hw
      simp only [List.all_cons, Bool.and_eq_true]
      exact ⟨by simp [hcw], hacc⟩

lemma normFrom_append_word : ∀ (w cs : List Char) (b : Bool), w ≠ [] →
    w.all (fun c => !c.isWhitespace) = true →
    normFrom b (w ++ cs) = normFrom false cs := by
  intro w
  induction w with
  | nil => intro cs b h _; exact absurd rfl h
  | cons c w' ih =>
    intro cs b _ hall
    simp only [List.all_cons, Bool.and_eq_true] at hall
    obtain ⟨hc, hw'⟩ := hall
    have hwf : c.isWhitespace = false := by
      cases h : c.isWhitespace
      · rfl
      · rw [h] at hc; simp at hc
    have hcs : c ≠ ' ' := by
      intro h
      subst h
      simp at hwf
    simp only [List.cons_append, normFrom, if_neg hcs, hwf, Bool.not_false, Bool.true_and]
    cases w' with
    | nil => simp
    | cons d w'' => exact ih cs false (by simp) hw'

lemma normFrom_joinWords : ∀ (ws : List (List Char)) (b : Bool),
    (∀ w ∈ ws, w ≠ [] ∧ w.all (fun c => !c.isWhitespace) = true) → ws ≠ [] →
    normFrom b (joinWords ws) = true := by
  intro ws
  induction ws with
  | nil => intro b _ h; exact absurd rfl h
  | cons w ws' ih =>
    intro b hws _
    obtain ⟨hw, hwall⟩ := hws w (by simp)
    cases ws' with
    | nil =>
      simp only [joinWords]
      have := normFrom_append_word w [] b hw hwall
      simpa using this
    | cons w2 ws'' =>
      simp only [joinWords]
      rw [normFrom_append_word w _ b hw hwall]
      simp only [normFrom, if_pos rfl, Bool.not_false, Bool.true_and]
      exact ih true (fun x hx => hws x (by simp [hx])) (by simp)

lemma normWs_normalized (s : String) : isNormalizedStr (normWs s) = true := by
  show ((joinWords (splitWords s.data [])).isEmpty
    || normFrom true (joinWords (splitWords s.data []))) = true
  cases hws : splitWords s.data [] with
  | nil => simp [joinWords]
  | cons w ws' =>
    have hall : ∀ w' ∈ splitWords s.data [], w' ≠ [] ∧ w'.all (fun c => !c.isWhitespace) = true :=
      splitWords_ok s.data [] (by simp)
    rw [hws] at hall
    have := normFrom_joinWords (w :: ws') true hall (by simp)
    simp [this]

lemma dictSet_mem {α : Type} : ∀ (r : List (String × α)) (k : String) (v : α) (p : String × α),
    p ∈ dictSet r k v → p = (k, v) ∨ p ∈ r := by
  intro r k v p
  induction r with
  | nil =>
    intro h
    simp only [dictSet] at h
    left
    simpa using h
  | cons a rest ih =>
    obtain ⟨k1, v1⟩ := a
    intro h
    simp only [dictSet] at h
    by_cases hk : k1 = k
    · rw [if_pos hk] at h
      rcases List.mem_cons.mp h with h' | h'
      · left; exact h'
      · right; exact List.mem_cons_of_mem _ h'
    · rw [if_neg hk] at h
      rcases List.mem_cons.mp h with h' | h'
      · right; rw [h']; exact List.mem_cons_self _ _
      · rcases ih h' with h'' | h''
        · left; exact h''
        · right; exact List.mem_cons_of_mem _ h''

lemma foldl_preserve {α β : Type} (P : β → Prop) (step : β → α → β)
    (hstep : ∀ b a, P b → P (step b a)) :
    ∀ (l : List α) (b : β), P b → P (l.foldl step b) := by
  intro l
  induction l with
  | nil => intro b h; exact h
  | cons a l' ih => intro b h; exact ih (step b a) (hstep b a h)

lemma rowData_values (headers : List String) (cells : List String) :
    ∀ p ∈ rowData headers cells, isNormalizedStr p.2 = true := by
  have := foldl_preserve (fun acc : List (String × String) =>
      ∀ p ∈ acc, isNormalizedStr p.2 = true)
    (rowDataStep headers)
    (by
      intro acc a hacc p hp
      simp only [rowDataStep] at hp
      by_cases h1 : a.1 < headers.length
      · rw [if_pos h1] at hp
        by_cases h2 : headers.getD a.1 "" = ""
        · rw [if_pos h2] at hp
          exact hacc p hp
        · rw [if_neg h2] at hp
          rcases dictSet_mem _ _ _ _ hp with h' | h'
          · rw [h']
            exact normWs_normalized _
          · exact hacc p h'
      · rw [if_neg h1] at hp
        exact hacc p hp)
    cells.enum []
  exact this (by intro p hp; simp at hp)

lemma extractRows_values (headers0 : List String) (rows : List (List String)) :
    ∀ r ∈ extractRows headers0 rows, ∀ p ∈ r, isNormalizedStr p.2 = true := by
  have := foldl_preserve
    (fun st : List String × List (List (String × String)) =>
      ∀ r ∈ st.2, ∀ p ∈ r, isNormalizedStr p.2 = true)
    extractRowsStep
    (by
      intro st row hst
      simp only [extractRowsStep]
      by_cases he : row.isEmpty
      · rw [if_pos he]; exact hst
      · rw [if_neg he]
        set headers := if st.1.isEmpty then
            (List.range row.length).map (fun i => "column_" ++ toString i)
          else st.1 with hh
        by_cases hrd : (rowData headers row).isEmpty
        · rw [if_pos hrd]; exact hst
        · rw [if_neg hrd]
          intro r hr
          simp only [List.mem_append, List.mem_singleton] at hr
          rcases hr with hr | hr
          · exact hst r hr
          · rw [hr]
            exact rowData_values headers row)
    rows (headers0, [])
  exact this (by intro r hr; simp at hr)

/-- Claim C7 counterexample: in the HTML table `[["A"], [" "]]` (header row
with cell text `A`, one data row with a single whitespace-only cell), the
data row has zero non-empty cells after normalization, yet the extractor
returns a record for it — the key `A` bound to the empty string — because
`row_data` is a nonempty dict even when every normalized cell text is
empty.  The claim predicts an empty result here. -/
theorem extract_table_empty_row_cex :
    extract_table_data [[["A"], [" "]]] = [[("A", "")]] ∧
    extract_table_data [[["A"], [" "]]] ≠ [] := by
  constructor
  · decide
  · decide

/-- Claim C7 (amended): every cell text in the output of
`extract_table_data` is whitespace-normalized (line breaks and repeated
spaces collapsed to single spaces, no leading/trailing whitespace), and
every table row with zero cells is absent from the returned record list;
a row with at least one cell, all of whose cells are empty after
normalization, still yields a record (with empty-string values), as the
counterexample shows. -/
theorem extract_table_normalization :
    (∀ (tables : List (List (List String))) (r : List (String × String))
        (p : String × String),
      r ∈ extract_table_data tables → p ∈ r → isNormalizedStr p.2 = true) ∧
    (∀ (headers0 : List String) (rows1 rows2 : List (List String)),
      extractRows headers0 (rows1 ++ [] :: rows2) =
        extractRows headers0 (rows1 ++ rows2)) := by
  constructor
  · intro tables r p hr hp
    simp only [extract_table_data, List.mem_flatten, List.mem_map] at hr
    obtain ⟨block, ⟨t, ht, hbt⟩, hrb⟩ := hr
    subst hbt
    cases t with
    | nil => simp at hrb
    | cons firstRow rest =>
      simp only [] at hrb
      by_cases hh : (mkHeaders firstRow).isEmpty
      · rw [if_pos hh] at hrb
        exact extractRows_values _ _ r hrb p hp
      · rw [if_neg hh] at hrb
        exact extractRows_values _ _ r hrb p hp
  · intro headers0 rows1 rows2
    have hstep : ∀ st : List String × List (List (String × String)),
        extractRowsStep st [] = st := by
      intro st
      simp [extractRowsStep]
    simp only [extractRows, List.foldl_append, List.foldl_cons, hstep]

/-- Claim C7 (amended) witness: a concrete table with header `A b` and a
data cell `" x \n y "`; the extracted value `"x y"` is normalized. -/
theorem extract_table_normalization_witness :
    [("A b", "x y")] ∈ extract_table_data [[["A b"], [" x \n y "]]] ∧
    ("A b", "x y") ∈ [("A b", "x y")] ∧
    isNormalizedStr "x y" = true :=
  ⟨by decide, by decide,
   extract_table_normalization.1 [[["A b"], [" x \n y "]]] [("A b", "x y")]
     ("A b", "x y") (by decide) (by decide)⟩

lemma foldl_append_eq_flatten {α β : Type} (g : α → List β) :
    ∀ (l : List α) (init : List β),
      l.foldl (fun acc x => acc ++ g x) init = init ++ (l.map g).flatten := by
  intro l
  induction l with
  | nil => intro init; simp
  | cons a l' ih =>
    intro init
    simp only [List.foldl_cons, List.map_cons, List.flatten_cons, ih, List.append_assoc]

lemma lookup_dictSet {α : Type} : ∀ (r : List (String × α)) (k : String) (v : α),
    (dictSet r k v).lookup k = some v := by
  intro r k v
  induction r with
  | nil => simp [dictSet, List.lookup]
  | cons a rest ih =>
    obtain ⟨k1, v1⟩ := a
    simp only [dictSet]
    by_cases hk : k1 = k
    · rw [if_pos hk]
      simp [List.lookup]
    · rw [if_neg hk]
      have : (k == k1) = false := by
        simp only [beq_eq_false_iff_ne, ne_eq]
        intro h
        exact hk h.symm
      simp [List.lookup, this, ih]

lemma fetchWithRetries_none (f : Nat → Option String) :
    ∀ (budget attempt : Nat), (∀ a, attempt ≤ a → a < attempt + budget → f a = none) →
      fetchWithRetries f attempt budget = none := by
  intro budget
  induction budget with
  | zero => intro attempt _; rfl
  | succ b ih =>
    intro attempt h
    have h0 : f attempt = none := h attempt (le_refl _) (by omega)
    simp only [fetchWithRetries, h0]
    exact ih (attempt + 1) (fun a ha hb => h a (by omega) (by omega))

/-- Claim C3: `scrape_with_pagination` over `start_year ≤ end_year` is the
concatenation of per-year blocks over exactly the inclusive year range;
every record in a year's block carries that year under the `ano` key; and
a year all of whose `max_retries` fetch attempts fail contributes the
empty block — so it is skipped without aborting the other years or the
whole call. -/
theorem scrape_with_pagination_spec (fetch : Nat → Nat → Option String)
    (extract : String → List PyRecord) (s t m : Nat) (hst : s ≤ t) :
    scrape_with_pagination fetch extract s t m =
      ((List.range' s (t + 1 - s)).map (yearBlock fetch extract m)).flatten ∧
    (∀ y, y ∈ List.range' s (t + 1 - s) ↔ (s ≤ y ∧ y ≤ t)) ∧
    (∀ y r, r ∈ yearBlock fetch extract m y →
      r.lookup "ano" = some (PyValue.int y)) ∧
    (∀ y, (∀ a, a < m → fetch y a = none) → yearBlock fetch extract m y = []) := by
  refine ⟨?_, ?_, ?_, ?_⟩
  · simp only [scrape_with_pagination]
    rw [foldl_append_eq_flatten]
    simp
  · intro y
    rw [List.mem_range'_1]
    omega
  · intro y r hr
    simp only [yearBlock] at hr
    cases hf : fetchWithRetries (fetch y) 0 m with
    | some html =>
      rw [hf] at hr
      simp only [List.mem_map] at hr
      obtain ⟨r0, _, hr0⟩ := hr
      rw [← hr0]
      exact lookup_dictSet r0 "ano" (PyValue.int y)
    | none =>
      rw [hf] at hr
      simp at hr
  · intro y hy
    simp only [yearBlock]
    rw [fetchWithRetries_none (fetch y) m 0 (fun a _ hb => hy a (by omega))]

/-- Claim C3 witness: years 2020–2021 with `max_retries = 3`; every attempt
for 2020 fails, 2021 succeeds on the second attempt; the scrape equals the
concatenation of the two year blocks. -/
theorem scrape_with_pagination_spec_witness :
    (2020 ≤ 2021) ∧
    scrape_with_pagination
        (fun y a => if y = 2021 && a == 1 then some "page" else none)
        (fun _ => [[("Cultivar", PyValue.str "Merlot")]]) 2020 2021 3 =
      ((List.range' 2020 (2021 + 1 - 2020)).map
        (yearBlock (fun y a => if y = 2021 && a == 1 then some "page" else none)
          (fun _ => [[("Cultivar", PyValue.str "Merlot")]]) 3)).flatten :=
  ⟨by decide,
   (scrape_with_pagination_spec
     (fun y a => if y = 2021 && a == 1 then some "page" else none)
     (fun _ => [[("Cultivar", PyValue.str "Merlot")]]) 2020 2021 3 (by decide)).1⟩

lemma digit_not_dot (c : Char) (h : c.isDigit = true) : decide (c ≠ '.') = true := by
  by_cases he : c = '.'
  · subst he
    exact absurd h (by decide)
  · simp [he]

lemma takeWhile_all {p : Char → Bool} :
    ∀ cs : List Char, (∀ x ∈ cs, p x = true) → cs.takeWhile p = cs := by
  intro cs
  induction cs with
  | nil => intro _; rfl
  | cons a l ih =>
    intro hall
    have ha := hall a (List.mem_cons_self a l)
    simp [List.takeWhile_cons, ha, ih (fun x hx => hall x (List.mem_cons_of_mem _ hx))]

lemma takeWhile_all_append {p : Char → Bool} :
    ∀ (xs : List Char) (y : Char) (ys : List Char),
      (∀ x ∈ xs, p x = true) → p y = false → (xs ++ y :: ys).takeWhile p = xs := by
  intro xs
  induction xs with
  | nil =>
    intro y ys _ hy
    simp [List.takeWhile_cons, hy]
  | cons a l ih =>
    intro y ys hall hy
    have ha := hall a (List.mem_cons_self a l)
    simp [List.takeWhile_cons, ha,
      ih y ys (fun x hx => hall x (List.mem_cons_of_mem _ hx)) hy]

lemma all_not_dot_of_digits (cs : List Char) (h : cs.all Char.isDigit = true) :
    ∀ x ∈ cs, decide (x ≠ '.') = true := by
  intro x hx
  exact digit_not_dot x (List.all_eq_true.mp h x hx)

lemma parseFloatChars_digits (cs : List Char) (hne : cs ≠ [])
    (hd : cs.all Char.isDigit = true) :
    parseFloatChars cs = some ((digitsVal cs : ℚ)) := by
  have ht : cs.takeWhile (fun c => c ≠ '.') = cs :=
    takeWhile_all cs (all_not_dot_of_digits cs hd)
  have hie : cs.isEmpty = false := by
    cases cs with
    | nil => exact absurd rfl hne
    | cons a l => rfl
  simp only [parseFloatChars, ht, List.drop_length]
  rw [if_pos]
  simp [hie, hd]

lemma parseFloatChars_digits_dot (ip fp : List Char) (hip : ip ≠ [])
    (hipd : ip.all Char.isDigit = true) (hfpd : fp.all Char.isDigit = true) :
    parseFloatChars (ip ++ '.' :: fp) =
      some ((digitsVal ip : ℚ) + (digitsVal fp : ℚ) / (10 : ℚ) ^ fp.length) := by
  have ht : (ip ++ '.' :: fp).takeWhile (fun c => c ≠ '.') = ip :=
    takeWhile_all_append ip '.' fp (all_not_dot_of_digits ip hipd) (by decide)
  have hie : ip.isEmpty = false := by
    cases ip with
    | nil => exact absurd rfl hip
    | cons a l => rfl
  have hfa : (fp.any (fun c => c = '.')) = false := by
    rw [List.any_eq_false]
    intro x hx
    have := all_not_dot_of_digits fp hfpd x hx
    simp at this
    simp [this]
  simp only [parseFloatChars, ht, List.drop_left]
  rw [if_neg (by simp [hfa]), if_pos]
  simp [hipd, hfpd, hie]

/-- Claim C6: the locale-aware numeric conversion of the fallback loader
(thousands separator `.`, decimal separator `,`) maps `"1.234.567,89"` to
`1234567.89` and `"123,45"` to `123.45`, and a text column is converted
only when strictly more than half of its values convert successfully. -/
theorem locale_numeric_parsing_spec :
    localeConvert "1.234.567,89" = some ((123456789 : ℚ) / 100) ∧
    localeConvert "123,45" = some ((12345 : ℚ) / 100) ∧
    (∀ col : List (Option String), convertNumericColumn col ≠ columnAsValues col →
      2 * (col.map (fun c => c.bind localeConvert)).countP (fun o => o.isSome) >
        col.length) := by
  refine ⟨?_, ?_, ?_⟩
  · have e1 : (("1.234.567,89".data.filter (fun c => c ≠ '.')).map
        (fun c => if c = ',' then '.' else c)) =
        ['1', '2', '3', '4', '5', '6', '7', '.', '8', '9'] := by decide
    have e2 : (['1', '2', '3', '4', '5', '6', '7', '.', '8', '9'] : List Char) =
        ['1', '2', '3', '4', '5', '6', '7'] ++ '.' :: ['8', '9'] := rfl
    simp only [localeConvert, e1, e2]
    rw [parseFloatChars_digits_dot _ _ (by decide) (by decide) (by decide)]
    have d1 : digitsVal ['1', '2', '3', '4', '5', '6', '7'] = 1234567 := by decide
    have d2 : digitsVal ['8', '9'] = 89 := by decide
    rw [d1, d2]
    norm_num
  · have e1 : (("123,45".data.filter (fun c => c ≠ '.')).map
        (fun c => if c = ',' then '.' else c)) =
        ['1', '2', '3', '.', '4', '5'] := by decide
    have e2 : (['1', '2', '3', '.', '4', '5'] : List Char) =
        ['1', '2', '3'] ++ '.' :: ['4', '5'] := rfl
    simp only [localeConvert, e1, e2]
    rw [parseFloatChars_digits_dot _ _ (by decide) (by decide) (by decide)]
    have d1 : digitsVal ['1', '2', '3'] = 123 := by decide
    have d2 : digitsVal ['4', '5'] = 45 := by decide
    rw [d1, d2]
    norm_num
  · intro col hne
    by_contra hle
    apply hne
    simp only [convertNumericColumn]
    rw [if_neg hle]

/-- Claim C6 witness: the column `[some "7", some "8"]` is actually
converted (both values parse, `2·2 > 2`), discharging the hypothesis of
the only-when conjunct. -/
theorem locale_numeric_parsing_spec_witness :
    convertNumericColumn [some "7", some "8"] ≠
      columnAsValues [some "7", some "8"] ∧
    2 * (([some "7", some "8"].map
        (fun c => c.bind localeConvert)).countP (fun o => o.isSome)) >
      ([some "7", some "8"] : List (Option String)).length :=
  ⟨by decide, locale_numeric_parsing_spec.2.2 [some "7", some "8"] (by decide)⟩

/-- Claim C1: when the cache misses, the live scrape raises or yields
invalid data, recovery fails, and no fallback file loads for the
subcategory or the category default, `get_data` returns the user-visible
"no data" result `{"error": "Data retrieval failed", "data": [],
"fallback_used": True}` — a total function value, never a raw exception
(every failure is absorbed into the oracles' `none`/`error` outcomes). -/
theorem get_data_exhaustion_no_data (env : GetDataEnv) (a : GetDataArgs)
    (hcache : (cacheGet env.cache env.now
      (buildCacheKey a (effectiveSubcategory a)) none).1 = none)
    (hscrape : env.scrape = Except.error () ∨
      ∃ sd, env.scrape = Except.ok sd ∧ validate_scraped_data sd.data = false ∧
        attempt_data_recovery env.parseRawHtml sd = none)
    (hfb : ∀ sc, env.loadFallback sc = none) :
    get_data env a = GetDataResult.noData "Data retrieval failed" [] true := by
  have hfetch : fetchData env.scrape env.parseRawHtml = none := by
    rcases hscrape with h | ⟨sd, hok, hval, hrec⟩
    · rw [h]
      rfl
    · rw [hok]
      simp [fetchData, hval, hrec]
  simp [get_data, hcache, hfetch, hfb]

/-- Claim C1 witness: an empty cache, a raising scrape and absent fallback
files produce the "no data" result for `producao`. -/
theorem get_data_exhaustion_no_data_witness :
    get_data
      { cache := mkResilientCache ResultDict none none, now := 0,
        scrape := Except.error (), parseRawHtml := fun _ _ => none,
        loadFallback := fun _ => none }
      { category := "producao" } =
      GetDataResult.noData "Data retrieval failed" [] true :=
  get_data_exhaustion_no_data _ _ rfl (Or.inl rfl) (fun _ => rfl)

/-- Claim C10: `_validate_scraped_data` accepts an empty record list, so a
live scrape yielding zero records is returned by `get_data` with
`data_source = "online"`, `from_cache = False` and an empty data list,
without recovery or the CSV fallback being consulted (the fallback oracle
is never invoked on this path; the result is built from the scrape
alone). -/
theorem get_data_empty_scrape_online (env : GetDataEnv) (a : GetDataArgs)
    (sd : ScrapedDataM)
    (hcache : (cacheGet env.cache env.now
      (buildCacheKey a (effectiveSubcategory a)) none).1 = none)
    (hscrape : env.scrape = Except.ok sd) (hdata : sd.data = []) :
    validate_scraped_data sd.data = true ∧
    get_data env a = GetDataResult.ok sd.metadata [] false "online" 0 := by
  have hval : validate_scraped_data sd.data = true := by rw [hdata]; rfl
  refine ⟨hval, ?_⟩
  have hfetch : fetchData env.scrape env.parseRawHtml = some sd.toResult := by
    rw [hscrape]
    simp [fetchData, hval]
  simp [get_data, hcache, hfetch, ScrapedDataM.toResult, hdata, filter_data,
    sanitize_for_json, detect_subcategory_from_data, ite_self]

/-- Claim C10 witness: a concrete empty scrape for `producao` comes back
as an online result with no data. -/
theorem get_data_empty_scrape_online_witness :
    validate_scraped_data
      ({ source_url := "u", timestampN := 0, data := [],
         metadata := [("category", PyValue.str "producao")],
         raw_html := none } : ScrapedDataM).data = true ∧
    get_data
      { cache := mkResilientCache ResultDict none none, now := 0,
        scrape := Except.ok
          { source_url := "u", timestampN := 0, data := [],
            metadata := [("category", PyValue.str "producao")],
            raw_html := none },
        parseRawHtml := fun _ _ => none, loadFallback := fun _ => none }
      { category := "producao" } =
      GetDataResult.ok [("category", PyValue.str "producao")] [] false "online" 0 :=
  get_data_empty_scrape_online _ _ _ rfl rfl rfl

lemma getD_map_of_lt {α β : Type} (f : α → β) :
    ∀ (l : List α) (n : Nat) (d : β) (d' : α), n < l.length →
      (l.map f).getD n d = f (l.getD n d') := by
  intro l
  induction l with
  | nil => intro n d d' h; simp at h
  | cons a t ih =>
    intro n d d' h
    cases n with
    | zero => rfl
    | succ m =>
      simp only [List.map_cons, List.getD_cons_succ]
      exact ih m d d' (by simpa using h)

lemma getD_mem_of_lt {α : Type} : ∀ (l : List α) (n : Nat) (d : α), n < l.length →
    l.getD n d ∈ l := by
  intro l
  induction l with
  | nil => intro n d h; simp at h
  | cons a t ih =>
    intro n d h
    cases n with
    | zero => exact List.mem_cons_self a t
    | succ m =>
      simp only [List.getD_cons_succ]
      exact List.mem_cons_of_mem _ (ih m d (by simpa using h))

lemma length_flatten_const {α β : Type} (f : α → List β) (k : Nat) :
    ∀ l : List α, (∀ x ∈ l, (f x).length = k) →
      ((l.map f).flatten).length = l.length * k := by
  intro l
  induction l with
  | nil => intro _; simp
  | cons a t ih =>
    intro h
    simp only [List.map_cons, List.flatten_cons, List.length_append,
      ih (fun x hx => h x (List.mem_cons_of_mem _ hx)), h a (List.mem_cons_self a t),
      List.length_cons]
    ring

lemma getD_append_left_own {α : Type} (l' : List α) (d : α) :
    ∀ (l : List α) (n : Nat), n < l.length → (l ++ l').getD n d = l.getD n d := by
  intro l
  induction l with
  | nil => intro n h; simp at h
  | cons a t ih =>
    intro n h
    cases n with
    | zero => rfl
    | succ m =>
      simp only [List.cons_append, List.getD_cons_succ]
      exact ih m (by simpa using h)

lemma getD_append_right_own {α : Type} (l' : List α) (d : α) :
    ∀ (l : List α) (n : Nat), (l ++ l').getD (l.length + n) d = l'.getD n d := by
  intro l
  induction l with
  | nil => intro n; simp
  | cons a t ih =>
    intro n
    simp only [List.cons_append, List.length_cons]
    have : t.length + 1 + n = (t.length + n) + 1 := by omega
    rw [this, List.getD_cons_succ]
    exact ih n

lemma flatten_getD_const {α β : Type} (f : α → List β) (k : Nat) (d : β) (a0 : α) :
    ∀ (l : List α) (j i : Nat), (∀ x ∈ l, (f x).length = k) → j < l.length → i < k →
      ((l.map f).flatten).getD (j * k + i) d = (f (l.getD j a0)).getD i d := by
  intro l
  induction l with
  | nil => intro j i _ hj _; simp at hj
  | cons a t ih =>
    intro j i hall hj hi
    have hk := hall a (List.mem_cons_self a t)
    cases j with
    | zero =>
      simp only [List.map_cons, List.flatten_cons, Nat.zero_mul, Nat.zero_add,
        List.getD_cons_zero]
      exact getD_append_left_own _ d (f a) i (by omega)
    | succ m =>
      simp only [List.map_cons, List.flatten_cons, List.getD_cons_succ]
      have hidx : (m + 1) * k + i = (f a).length + (m * k + i) := by
        rw [hk]; ring
      rw [hidx, getD_append_right_own]
      exact ih m i (fun x hx => hall x (List.mem_cons_of_mem _ hx)) (by simpa using hj) hi

lemma data_ne_nil_of_ne_empty (s : String) (h : s ≠ "") : s.data ≠ [] := by
  intro hd
  apply h
  cases s with
  | mk l =>
    have : l = [] := hd
    exact congrArg String.mk this

lemma pdToNumeric_digits (s : String) (hne : s ≠ "")
    (hd : s.data.all Char.isDigit = true) :
    pdToNumeric (PyValue.str s) = PyValue.int ((digitsVal s.data : Nat) : Int) := by
  simp only [pdToNumeric, parseNumQ,
    parseFloatChars_digits s.data (data_ne_nil_of_ne_empty s hne) hd]
  simp only [qToPyValue]
  rw [if_pos (Rat.den_natCast _)]
  simp [Rat.num_natCast]

lemma isYearCol_parts (c : String) (h : isYearCol c = true) :
    c ≠ "" ∧ c.data.all Char.isDigit = true := by
  simp only [isYearCol, Bool.and_eq_true] at h
  obtain ⟨h1, h2⟩ := h
  refine ⟨?_, h2⟩
  intro he
  subst he
  simp at h1

lemma convRow_meltRow (cols : List String) (idc vc : String) (row : List PyValue) :
    ((meltRow cols [idc] vc row).enum.map
      (fun p => if p.1 = 1 then pdToNumeric p.2 else p.2)) =
    [cellAt cols row idc, pdToNumeric (PyValue.str vc), cellAt cols row vc] := by
  simp [meltRow, List.enum, List.enumFrom]

lemma reshapeFallback_eq (df : Df) (idc : String)
    (hid : df.columns.filter (fun c => idColNames.contains (lowerStr c)) = [idc])
    (hyear : 0 < (df.columns.filter isYearCol).length) :
    reshapeFallback df =
      { columns := [idc] ++ ["ano", "valor"]
        rows := (((df.columns.filter isYearCol).map
            (fun vc => df.rows.map (meltRow df.columns [idc] vc))).flatten).map
          (fun r => r.enum.map (fun p => if p.1 = 1 then pdToNumeric p.2 else p.2)) } := by
  simp only [reshapeFallback, hid, melt]
  rw [if_pos hyear]
  simp

/-- Claim C5: a loaded wide-format fallback table with one recognized
identifier column (here `id`-style, matched case-insensitively) and year-
named columns reshapes to exactly one output record per (identifier, year,
value) triple — the output row count is input rows times year columns,
indexing row `j·rows+i` yields row `i`'s identifier cell, the year parsed
from year column `j` and that cell's value, and every output row's `ano`
field is numeric. -/
theorem fallback_reshape_spec (df : Df) (idc : String)
    (hid : df.columns.filter (fun c => idColNames.contains (lowerStr c)) = [idc])
    (hyear : 0 < (df.columns.filter isYearCol).length) :
    (reshapeFallback df).rows.length =
      df.rows.length * (df.columns.filter isYearCol).length ∧
    (∀ r ∈ (reshapeFallback df).rows, ∃ n : Int, r.getD 1 PyValue.null = PyValue.int n) ∧
    (∀ j i, j < (df.columns.filter isYearCol).length → i < df.rows.length →
      (reshapeFallback df).rows.getD (j * df.rows.length + i) [] =
        [cellAt df.columns (df.rows.getD i []) idc,
         PyValue.int ((digitsVal ((df.columns.filter isYearCol).getD j "").data : Nat) : Int),
         cellAt df.columns (df.rows.getD i [])
           ((df.columns.filter isYearCol).getD j "")]) := by
  rw [reshapeFallback_eq df idc hid hyear]
  have hblock : ∀ vc ∈ df.columns.filter isYearCol,
      (df.rows.map (meltRow df.columns [idc] vc)).length = df.rows.length := by
    intro vc _
    exact List.length_map _ _
  have hflatlen : ((((df.columns.filter isYearCol)).map
      (fun vc => df.rows.map (meltRow df.columns [idc] vc))).flatten).length =
      (df.columns.filter isYearCol).length * df.rows.length :=
    length_flatten_const _ _ _ hblock
  refine ⟨?_, ?_, ?_⟩
  · simp only [List.length_map, hflatlen]
    ring
  · intro r hr
    simp only [List.mem_map] at hr
    obtain ⟨r0, hr0, hconv⟩ := hr
    rw [List.mem_flatten] at hr0
    obtain ⟨block, hb, hr0b⟩ := hr0
    simp only [List.mem_map] at hb
    obtain ⟨vc, hvc, hbe⟩ := hb
    rw [← hbe] at hr0b
    simp only [List.mem_map] at hr0b
    obtain ⟨row, _, hrow⟩ := hr0b
    obtain ⟨hvne, hvdig⟩ := isYearCol_parts vc (List.of_mem_filter hvc)
    rw [← hconv, ← hrow, convRow_meltRow, pdToNumeric_digits vc hvne hvdig]
    exact ⟨_, rfl⟩
  · intro j i hj hi
    have hidx : j * df.rows.length + i <
        ((((df.columns.filter isYearCol)).map
          (fun vc => df.rows.map (meltRow df.columns [idc] vc))).flatten).length := by
      rw [hflatlen]
      have h1 : j * df.rows.length + i < (j + 1) * df.rows.length := by
        have : (j + 1) * df.rows.length = j * df.rows.length + df.rows.length := by ring
        omega
      have h2 : (j + 1) * df.rows.length ≤
          (df.columns.filter isYearCol).length * df.rows.length :=
        Nat.mul_le_mul_right _ (Nat.succ_le_of_lt hj)
      omega
    rw [getD_map_of_lt _ _ _ _ [] hidx,
      flatten_getD_const _ df.rows.length [] "" _ j i hblock hj hi,
      getD_map_of_lt _ _ _ _ [] hi, convRow_meltRow]
    have hvc := getD_mem_of_lt (df.columns.filter isYearCol) j "" hj
    obtain ⟨hvne, hvdig⟩ := isYearCol_parts _ (List.of_mem_filter hvc)
    rw [pdToNumeric_digits _ hvne hvdig]

/-- Claim C5 witness: the frame with columns `id, 1970, 1971` and two rows
reshapes to `2 × 2` records. -/
theorem fallback_reshape_spec_witness :
    (reshapeFallback
      { columns := ["id", "1970", "1971"]
        rows := [[PyValue.str "A", PyValue.str "10", PyValue.str "20"],
                 [PyValue.str "B", PyValue.str "30", PyValue.str "40"]] }).rows.length =
      ({ columns := ["id", "1970", "1971"]
         rows := [[PyValue.str "A", PyValue.str "10", PyValue.str "20"],
                  [PyValue.str "B", PyValue.str "30", PyValue.str "40"]] } : Df).rows.length *
        (({ columns := ["id", "1970", "1971"]
            rows := [[PyValue.str "A", PyValue.str "10", PyValue.str "20"],
                     [PyValue.str "B", PyValue.str "30", PyValue.str "40"]] } : Df).columns.filter
          isYearCol).length :=
  (fallback_reshape_spec _ "id" (by decide) (by decide)).1

lemma extractCultivares_cons_some (r : PyRecord) (rest : List PyRecord) (s : String)
    (hs : r.lookup "Cultivar" = some (PyValue.str s)) (hne : s ≠ "") :
    extractCultivares (r :: rest) = s :: extractCultivares rest := by
  simp only [extractCultivares, List.filterMap_cons, hs]
  simp [hne]

lemma extractCultivares_full (P : String → Prop) :
    ∀ data : List PyRecord,
      (∀ r ∈ data, ∃ s, r.lookup "Cultivar" = some (PyValue.str s) ∧ s ≠ "" ∧ P s) →
      (extractCultivares data).length = data.length ∧
        ∀ c ∈ extractCultivares data, P c := by
  intro data
  induction data with
  | nil =>
    intro _
    exact ⟨rfl, by intro c hc; simp [extractCultivares] at hc⟩
  | cons r rest ih =>
    intro h
    obtain ⟨s, hs, hne, hP⟩ := h r (List.mem_cons_self r rest)
    obtain ⟨ihl, ihm⟩ := ih (fun r' hr' => h r' (List.mem_cons_of_mem _ hr'))
    rw [extractCultivares_cons_some r rest s hs hne]
    refine ⟨by simp [ihl], ?_⟩
    intro c hc
    rcases List.mem_cons.mp hc with hc' | hc'
    · rw [hc']; exact hP
    · exact ihm c hc'

lemma extractCultivares_mem :
    ∀ (data : List PyRecord) (c : String), c ∈ extractCultivares data →
      ∃ r ∈ data, r.lookup "Cultivar" = some (PyValue.str c) := by
  intro data c hc
  simp only [extractCultivares, List.mem_filterMap] at hc
  obtain ⟨r, hr, hf⟩ := hc
  refine ⟨r, hr, ?_⟩
  cases hl : r.lookup "Cultivar" with
  | none => rw [hl] at hf; simp at hf
  | some v =>
    rw [hl] at hf
    cases v with
    | str s =>
      have hf1 : (if s = "" then none else some s) = some c := hf
      by_cases he : s = ""
      · rw [if_pos he] at hf1
        exact absurd hf1 (by simp)
      · rw [if_neg he] at hf1
        have : s = c := by simpa using hf1
        rw [← this]
    | int n => simp at hf
    | num q => simp at hf
    | null => simp at hf

lemma detect_processamento_counts (data : List PyRecord) (h2 : ¬ (data.length < 2))
    (hne : (extractCultivares data).isEmpty = false) :
    detect_subcategory_from_data "processamento" data =
      (if (argmaxFirst
          ("viniferas", (extractCultivares data).countP
            (matchesKeywords ["Cabernet Sauvignon", "Merlot", "Alicante Bouschet", "Ancelota"]))
          [("americanas", (extractCultivares data).countP
            (matchesKeywords ["Isabel", "Bordô", "Niagara"])),
           ("mesa", (extractCultivares data).countP
            (matchesKeywords ["Italia", "Rubi", "Crimson"]))]).2 > 0
       then some (argmaxFirst
          ("viniferas", (extractCultivares data).countP
            (matchesKeywords ["Cabernet Sauvignon", "Merlot", "Alicante Bouschet", "Ancelota"]))
          [("americanas", (extractCultivares data).countP
            (matchesKeywords ["Isabel", "Bordô", "Niagara"])),
           ("mesa", (extractCultivares data).countP
            (matchesKeywords ["Italia", "Rubi", "Crimson"]))]).1
       else none) := by
  simp only [detect_subcategory_from_data]
  rw [if_neg h2]
  have hc : (CULTIVAR_TYPE_MAPPING.lookup "processamento") =
      some [("viniferas", ["Cabernet Sauvignon", "Merlot", "Alicante Bouschet", "Ancelota"]),
            ("americanas", ["Isabel", "Bordô", "Niagara"]),
            ("mesa", ["Italia", "Rubi", "Crimson"])] := rfl
  rw [hc]
  simp [hne]

/-- Claim C4: dominant-subcategory detection (`detect_dominant`,
implemented as `detect_subcategory_from_data`): a batch of at least 2
records in `processamento` whose `Cultivar` fields match only vinifera
keywords yields `viniferas`; a concrete `2-1-1` split across the three
buckets yields the 2-count bucket; batches of fewer than 2 records yield
`none`; and batches with no keyword matches yield `none`. -/
theorem detect_dominant_spec :
    (∀ data : List PyRecord, 2 ≤ data.length →
      (∀ r ∈ data, ∃ s, r.lookup "Cultivar" = some (PyValue.str s) ∧ s ≠ "" ∧
        (matchesKeywords ["Cabernet Sauvignon", "Merlot", "Alicante Bouschet", "Ancelota"] s
            = true ∧
          matchesKeywords ["Isabel", "Bordô", "Niagara"] s = false ∧
          matchesKeywords ["Italia", "Rubi", "Crimson"] s = false)) →
      detect_subcategory_from_data "processamento" data = some "viniferas") ∧
    (detect_subcategory_from_data "processamento"
      [[("Cultivar", PyValue.str "Cabernet Sauvignon"), ("ano", PyValue.int 2022)],
       [("Cultivar", PyValue.str "Cabernet Sauvignon"), ("ano", PyValue.int 2023)],
       [("Cultivar", PyValue.str "Isabel")],
       [("Cultivar", PyValue.str "Italia")]] = some "viniferas") ∧
    (∀ (category : String) (data : List PyRecord), data.length < 2 →
      detect_subcategory_from_data category data = none) ∧
    (∀ data : List PyRecord, 2 ≤ data.length →
      (∀ r ∈ data, ∀ s, r.lookup "Cultivar" = some (PyValue.str s) →
        (matchesKeywords ["Cabernet Sauvignon", "Merlot", "Alicante Bouschet", "Ancelota"] s
            = false ∧
          matchesKeywords ["Isabel", "Bordô", "Niagara"] s = false ∧
          matchesKeywords ["Italia", "Rubi", "Crimson"] s = false)) →
      detect_subcategory_from_data "processamento" data = none) := by
  refine ⟨?_, ?_, ?_, ?_⟩
  · intro data h2 hrec
    obtain ⟨hlen, hall⟩ := extractCultivares_full _ data hrec
    have h2' : ¬ (data.length < 2) := by omega
    have hLpos : 0 < (extractCultivares data).length := by
      rw [hlen]; omega
    have hne : (extractCultivares data).isEmpty = false := by
      cases he : extractCultivares data with
      | nil => rw [he] at hLpos; simp at hLpos
      | cons a l => rfl
    have hv : (extractCultivares data).countP
        (matchesKeywords ["Cabernet Sauvignon", "Merlot", "Alicante Bouschet", "Ancelota"]) =
        (extractCultivares data).length :=
      List.countP_eq_length.mpr (fun c hc => (hall c hc).1)
    have ha : (extractCultivares data).countP
        (matchesKeywords ["Isabel", "Bordô", "Niagara"]) = 0 :=
      List.countP_eq_zero.mpr (fun c hc => by simp [(hall c hc).2.1])
    have hm : (extractCultivares data).countP
        (matchesKeywords ["Italia", "Rubi", "Crimson"]) = 0 :=
      List.countP_eq_zero.mpr (fun c hc => by simp [(hall c hc).2.2])
    rw [detect_processamento_counts data h2' hne, hv, ha, hm]
    simp only [argmaxFirst, List.foldl_cons, List.foldl_nil]
    have hn1 : ¬ ((0 : Nat) > (extractCultivares data).length) := by omega
    rw [if_neg hn1, if_neg hn1, if_pos]
    exact hLpos
  · decide
  · intro category data h
    simp only [detect_subcategory_from_data]
    rw [if_pos h]
  · intro data h2 hnone
    have h2' : ¬ (data.length < 2) := by omega
    cases hne : (extractCultivares data).isEmpty with
    | true =>
      simp only [detect_subcategory_from_data]
      rw [if_neg h2']
      have hc : (CULTIVAR_TYPE_MAPPING.lookup "processamento") =
          some [("viniferas", ["Cabernet Sauvignon", "Merlot", "Alicante Bouschet", "Ancelota"]),
                ("americanas", ["Isabel", "Bordô", "Niagara"]),
                ("mesa", ["Italia", "Rubi", "Crimson"])] := rfl
      rw [hc]
      simp [hne]
    | false =>
      have hv : (extractCultivares data).countP
          (matchesKeywords ["Cabernet Sauvignon", "Merlot", "Alicante Bouschet", "Ancelota"]) =
          0 :=
        List.countP_eq_zero.mpr (fun c hc => by
          obtain ⟨r, hr, hl⟩ := extractCultivares_mem data c hc
          simp [(hnone r hr c hl).1])
      have ha : (extractCultivares data).countP
          (matchesKeywords ["Isabel", "Bordô", "Niagara"]) = 0 :=
        List.countP_eq_zero.mpr (fun c hc => by
          obtain ⟨r, hr, hl⟩ := extractCultivares_mem data c hc
          simp [(hnone r hr c hl).2.1])
      have hm : (extractCultivares data).countP
          (matchesKeywords ["Italia", "Rubi", "Crimson"]) = 0 :=
        List.countP_eq_zero.mpr (fun c hc => by
          obtain ⟨r, hr, hl⟩ := extractCultivares_mem data c hc
          simp [(hnone r hr c hl).2.2])
      rw [detect_processamento_counts data h2' hne, hv, ha, hm]
      simp [argmaxFirst]

/-- Claim C4 witness: two records whose cultivars are `Cabernet Sauvignon`
and `Merlot` (vinifera keywords only) are classified as `viniferas`. -/
theorem detect_dominant_spec_witness :
    2 ≤ ([[("Cultivar", PyValue.str "Cabernet Sauvignon")],
          [("Cultivar", PyValue.str "Merlot")]] : List PyRecord).length ∧
    detect_subcategory_from_data "processamento"
      [[("Cultivar", PyValue.str "Cabernet Sauvignon")],
       [("Cultivar", PyValue.str "Merlot")]] = some "viniferas" :=
  ⟨by decide,
   detect_dominant_spec.1
     [[("Cultivar", PyValue.str "Cabernet Sauvignon")],
      [("Cultivar", PyValue.str "Merlot")]] (by decide)
     (by
       intro r hr
       rcases List.mem_cons.mp hr with h | h
       · subst h
         exact ⟨"Cabernet Sauvignon", rfl, by decide, by decide, by decide, by decide⟩
       · rcases List.mem_cons.mp h with h2 | h2
         · subst h2
           exact ⟨"Merlot", rfl, by decide, by decide, by decide, by decide⟩
         · simp at h2)⟩
